import Mathlib

/-!
Verification of the molgenis-api-client request module
(src/dist/molgenis-api-client.es.js).

The module is a thin wrapper over a fetch-like transport.  We embed it
shallowly: the transport is a parameter mapping a url and a request
configuration to a transport response; promises become values of
`Except Payload Payload`, where `Except.error` is the rejection path and
`Except.ok` the resolution path; JavaScript objects (request options and
merged configurations) become `OptVal`; decoded JSON bodies become `JValue`.
-/

namespace MolgenisClient

/-- JSON values, as produced by decoding a response body with
`response.json()`. -/
inductive JValue where
  | null
  | bool (b : Bool)
  | num (n : Int)
  | str (s : String)
  | arr (elems : List JValue)
  | obj (fields : List (String × JValue))

/-- JavaScript values appearing in request options and configurations:
strings, `FormData` bodies (an ordered list of appended name/value entries,
file contents modelled as strings), and plain objects (ordered key/value
field lists; JavaScript object keys are unique). -/
inductive OptVal where
  | str (s : String)
  | form (entries : List (String × String))
  | obj (fields : List (String × OptVal))

/-- Key lookup in an object field list: the value at the first field whose
key matches, as JavaScript property access on an object. -/
def getKey (fields : List (String × OptVal)) (k : String) : Option OptVal :=
  (fields.find? (fun kv => kv.1 == k)).map (fun kv => kv.2)

mutual

/-- lodash `merge` of a source value (second argument) into a destination
value (first argument): when both are plain objects they are merged
recursively key by key, otherwise the source value wins. -/
def mergeVal : OptVal → OptVal → OptVal
  | .obj d, .obj s => .obj (mergeInto d s)
  | _, s => s

/-- Merge every field of the source field list into the destination field
list, left to right, as lodash `merge` walks the source object keys. -/
def mergeInto (d : List (String × OptVal)) : List (String × OptVal) → List (String × OptVal)
  | [] => d
  | (k, sv) :: rest => mergeInto (assignKey d k sv) rest

/-- Merge one source field into the destination field list: if the key is
already present its value is merged with the source value in place,
otherwise the field is appended (lodash keeps destination key order and
appends new source keys). -/
def assignKey : List (String × OptVal) → String → OptVal → List (String × OptVal)
  | [], k, sv => [(k, sv)]
  | (k0, dv) :: rest, k, sv =>
    if k0 = k then (k0, mergeVal dv sv) :: rest
    else (k0, dv) :: assignKey rest k sv

end

unseal mergeVal mergeInto assignKey

/-- The effect of lodash `merge` on one looked-up key: merge into the
destination value when the key was present, take the source value
otherwise. -/
def mergeAssign : Option OptVal → OptVal → OptVal
  | some dv, sv => mergeVal dv sv
  | none, sv => sv

/-- A transport response: header name/value pairs, the HTTP status, and the
result of decoding the body as JSON (the outcome of `response.json()`,
which can reject with a decode error). -/
structure Response where
  headers : List (String × String)
  status : Nat
  jsonBody : Except String JValue

/-- `String.prototype.toLowerCase` restricted to the characters at hand. -/
def jsToLower (s : String) : String :=
  String.mk (s.toList.map Char.toLower)

/-- `.split(c).join(the empty string)`: removes every occurrence of the
character from the string. -/
def removeAll (c : Char) (s : String) : String :=
  String.mk (s.toList.filter (fun x => x ≠ c))

/-- `response.headers.get(name)`: header lookup is case-insensitive per the
fetch specification. -/
def Response.getHeader (r : Response) (name : String) : Option String :=
  (r.headers.find? (fun kv => jsToLower kv.1 == jsToLower name)).map (fun kv => kv.2)

/-- `response.ok`: the status is in the 2xx success range. -/
def Response.ok (r : Response) : Bool :=
  200 ≤ r.status && r.status ≤ 299

/-- The normalization applied by `isJsonResponse` to the content-type
header value: `contentType.toLowerCase().split(space).join(the empty
string).split(double quote).join(the empty string)`. -/
def normalizeContentType (contentType : String) : String :=
  removeAll '\"' (removeAll ' ' (jsToLower contentType))

/-- `isJsonResponse(response)` from the source: false when the
content-type header is absent, otherwise exact equality of the normalized
header value with one of the two accepted forms. -/
def isJsonResponse (response : Response) : Bool :=
  match response.getHeader "content-type" with
  | none => false
  | some contentType =>
    let normalizedContentType := normalizeContentType contentType
    normalizedContentType == "application/json" ||
      normalizedContentType == "application/json;charset=utf-8"

/-- A resolution or rejection payload: a decoded JSON value, the raw
response object, or the error of a failed `response.json()` decode. -/
inductive Payload where
  | json (j : JValue)
  | raw (r : Response)
  | jsonDecodeFailure (e : String)

/-- `handleResponse(response)` from the source: on the JSON path decode
the body and resolve or reject with the decoded value by `response.ok`
(a decode failure propagates as a rejection); on the non-JSON path resolve
or reject with the raw response object. -/
def handleResponse (response : Response) : Except Payload Payload :=
  if isJsonResponse response then
    match response.jsonBody with
    | .ok json => if response.ok then .ok (.json json) else .error (.json json)
    | .error e => .error (.jsonDecodeFailure e)
  else
    if response.ok then .ok (.raw response) else .error (.raw response)

/-- The fields of the default headers object of the source. -/
def defaultHeaderFields : List (String × OptVal) :=
  [("Accept", .str "application/json"),
   ("Content-Type", .str "application/json"),
   ("X-Requested-With", .str "XMLHttpRequest")]

/-- The `defaultOptions` constant from the source. -/
def defaultOptions : OptVal :=
  .obj [("headers", .obj defaultHeaderFields),
        ("credentials", .str "same-origin")]

/-- `mergeOptions(method, options)` from the source:
`merge(new object with the method field, defaultOptions, options)` — lodash
merges the sources into the fresh destination object left to right. -/
def mergeOptions (method : String) (options : OptVal) : OptVal :=
  mergeVal (mergeVal (.obj [("method", .str method)]) defaultOptions) options

/-- The fetch-like transport the module dispatches requests through:
a function of the url and the merged request configuration. -/
abbrev Transport := String → OptVal → Response

/-- `get(url, options_)` from the source.  The trailing
`.then(response => response)` of the source is the identity on the
resolved value and is elided. -/
def get (fetch : Transport) (url : String) (options_ : OptVal) : Except Payload Payload :=
  let options := mergeOptions "GET" options_
  handleResponse (fetch url options)

/-- `post(url, options_)` from the source. -/
def post (fetch : Transport) (url : String) (options_ : OptVal) : Except Payload Payload :=
  let options := mergeOptions "POST" options_
  handleResponse (fetch url options)

/-- `put(url, options_)` from the source. -/
def put (fetch : Transport) (url : String) (options_ : OptVal) : Except Payload Payload :=
  let options := mergeOptions "PUT" options_
  handleResponse (fetch url options)

/-- `delete_(url, options_)` from the source. -/
def delete_ (fetch : Transport) (url : String) (options_ : OptVal) : Except Payload Payload :=
  let options := mergeOptions "DELETE" options_
  handleResponse (fetch url options)

/-- `postFile(url, file)` from the source: a fresh `FormData` with the
single appended field `file`, and a configuration object with exactly the
fields body, method POST and credentials same-origin. -/
def postFile (fetch : Transport) (url : String) (file : String) : Except Payload Payload :=
  let form : List (String × String) := [("file", file)]
  let options : OptVal :=
    .obj [("body", .form form),
          ("method", .str "POST"),
          ("credentials", .str "same-origin")]
  handleResponse (fetch url options)

/-- The common shape shared by `get`, `post`, `put` and `delete_`, stated
from the specification: merge the method constant with the options,
dispatch, and pipe the transport response through `handleResponse`. -/
def requestWithMethod (fetch : Transport) (method url : String) (options_ : OptVal) :
    Except Payload Payload :=
  let options := mergeOptions method options_
  handleResponse (fetch url options)

/-- Top-level key lookup in a request configuration. -/
def configKey (cfg : OptVal) (k : String) : Option OptVal :=
  match cfg with
  | .obj fields => getKey fields k
  | _ => none

/-- Lookup of one header in the headers mapping of a request
configuration. -/
def headerValue (cfg : OptVal) (name : String) : Option OptVal :=
  match configKey cfg "headers" with
  | some (.obj hs) => getKey hs name
  | _ => none

/-! ### The module state across a sequence of calls

The only module-level binding a call can read is the `defaultOptions`
constant.  To talk about mutation we thread it explicitly: `ClientState`
holds the current value of the binding, and each operation is replayed
against that state.  lodash `merge(object, ...sources)` mutates only its
first argument; in `mergeOptions` that destination is the fresh object
literal carrying the method field, so the sources (`defaultOptions` and
the caller options) are only read and the state passes through. -/

structure ClientState where
  defaultOptions : OptVal

/-- `mergeOptions` replayed against an explicit module state: the merge
reads the current `defaultOptions` value and builds its result in the
fresh destination object, returning the state it leaves behind. -/
def mergeOptionsIn (st : ClientState) (method : String) (options : OptVal) :
    OptVal × ClientState :=
  (mergeVal (mergeVal (.obj [("method", .str method)]) st.defaultOptions) options, st)

/-- One call to the public surface of the module. -/
inductive ApiCall where
  | get (url : String) (options_ : OptVal)
  | post (url : String) (options_ : OptVal)
  | put (url : String) (options_ : OptVal)
  | delete_ (url : String) (options_ : OptVal)
  | postFile (url : String) (file : String)

/-- Run one call against the module state. `postFile` never reads the
state; the other four read it through `mergeOptionsIn`. -/
def stepCall (fetch : Transport) (st : ClientState) :
    ApiCall → Except Payload Payload × ClientState
  | .get url options_ =>
    let (options, st') := mergeOptionsIn st "GET" options_
    (handleResponse (fetch url options), st')
  | .post url options_ =>
    let (options, st') := mergeOptionsIn st "POST" options_
    (handleResponse (fetch url options), st')
  | .put url options_ =>
    let (options, st') := mergeOptionsIn st "PUT" options_
    (handleResponse (fetch url options), st')
  | .delete_ url options_ =>
    let (options, st') := mergeOptionsIn st "DELETE" options_
    (handleResponse (fetch url options), st')
  | .postFile url file =>
    (postFile fetch url file, st)

/-- Run a sequence of calls against the module state, collecting the
outcomes and the final state. -/
def runCalls (fetch : Transport) (st : ClientState) :
    List ApiCall → List (Except Payload Payload) × ClientState
  | [] => ([], st)
  | c :: rest =>
    let (r, st') := stepCall fetch st c
    let (rs, st'') := runCalls fetch st' rest
    (r :: rs, st'')

/-! ### Concrete fixtures used by the verification -/

/-- The structured error body of the specification example:
an errors array with one message/code entry. -/
def errorBodyDS16 : JValue :=
  .obj [("errors",
         .arr [.obj [("message", .str "Group name \x27test\x27 is not available"),
                     ("code", .str "DS16")]])]

/-- A failing (400) transport response whose body is the DS16 error
object, served as `application/json`. -/
def errorResponseDS16 : Response :=
  ⟨[("content-type", "application/json")], 400, .ok errorBodyDS16⟩

/-- A failing (500) `text/html` transport response whose body does not
decode as JSON. -/
def htmlResponse500 : Response :=
  ⟨[("content-type", "text/html")], 500, .error "not a JSON body"⟩

/-- A 200 response whose content-type needs the full normalization: mixed
case, a space, and double quotes around the charset. -/
def jsonUtf8Response : Response :=
  ⟨[("Content-Type", "Application/json; charset=\"UTF-8\"")], 200, .ok .null⟩

/-- A 200 response carrying no headers at all. -/
def noContentTypeResponse : Response :=
  ⟨[], 200, .ok .null⟩

/-- A 200 response whose content-type has a tab where the normalized JSON
content type has nothing: the tab survives the normalization. -/
def tabResponse : Response :=
  ⟨[("content-type", "application/json;\tcharset=utf-8")], 200, .ok .null⟩

/-- A 200 response whose content-type has a vertical tab (a non-space
whitespace character outside the usual four) where the normalized JSON
content type has nothing. -/
def vtabResponse : Response :=
  ⟨[("content-type", "application/json;\x0Bcharset=utf-8")], 200, .ok .null⟩

/-- The request configuration object `postFile` builds. -/
def postFileConfig (file : String) : OptVal :=
  .obj [("body", .form [("file", file)]),
        ("method", .str "POST"),
        ("credentials", .str "same-origin")]

/-- Caller options that override only the Accept header: the example of
the spec, and a counterexample to reading the C2 quantification
literally. -/
def acceptOverrideFields : List (String × OptVal) :=
  [("headers", .obj [("Accept", .str "text/plain")])]

/-! ### Lemmas about the lodash merge -/

theorem getKey_nil (k : String) : getKey [] k = none := rfl

theorem getKey_cons (k0 : String) (v0 : OptVal) (rest : List (String × OptVal)) (k : String) :
    getKey ((k0, v0) :: rest) k = if k0 = k then some v0 else getKey rest k := by
  by_cases h : k0 = k <;> simp [getKey, List.find?_cons, h]

/-- Looking a key up after one lodash field assignment: the assigned key
now maps to the merged value, every other key is untouched. -/
theorem getKey_assignKey (d : List (String × OptVal)) (k : String) (v : OptVal) (k' : String) :
    getKey (assignKey d k v) k' =
      if k' = k then some (mergeAssign (getKey d k) v) else getKey d k' := by
  induction d with
  | nil =>
    by_cases h : k' = k
    · subst h
      simp [assignKey, getKey_cons, getKey_nil, mergeAssign]
    · simp [assignKey, getKey_cons, getKey_nil, mergeAssign, h, Ne.symm h]
  | cons hd tl ih =>
    obtain ⟨k0, dv⟩ := hd
    by_cases h0 : k0 = k
    · subst h0
      by_cases h' : k' = k0
      · subst h'
        simp [assignKey, getKey_cons, mergeAssign]
      · simp [assignKey, getKey_cons, mergeAssign, h', Ne.symm h']
    · by_cases h' : k' = k0
      · subst h'
        simp [assignKey, h0, getKey_cons, Ne.symm h0]
      · simp [assignKey, h0, getKey_cons, h', Ne.symm h', ih]

/-- Merging a source object none of whose fields carry the key leaves the
value at that key unchanged. -/
theorem getKey_mergeInto_of_forall_ne (d s : List (String × OptVal)) (k : String)
    (h : ∀ kv ∈ s, kv.1 ≠ k) :
    getKey (mergeInto d s) k = getKey d k := by
  induction s generalizing d with
  | nil => simp [mergeInto]
  | cons hd tl ih =>
    obtain ⟨k0, sv⟩ := hd
    have hk0 : k0 ≠ k := h (k0, sv) (List.mem_cons_self _ _)
    have htl : ∀ kv ∈ tl, kv.1 ≠ k := fun kv hkv => h kv (List.mem_cons_of_mem _ hkv)
    simp only [mergeInto]
    rw [ih _ htl, getKey_assignKey, if_neg (Ne.symm hk0)]

/-- The absent-key hypothesis in the convenient `getKey` form. -/
theorem getKey_eq_none_iff (s : List (String × OptVal)) (k : String) :
    getKey s k = none ↔ ∀ kv ∈ s, kv.1 ≠ k := by
  simp [getKey, List.find?_eq_none]

/-- Merging a source object that does not carry the key leaves the value at
that key unchanged. -/
theorem getKey_mergeInto_of_none (d s : List (String × OptVal)) (k : String)
    (h : getKey s k = none) :
    getKey (mergeInto d s) k = getKey d k :=
  getKey_mergeInto_of_forall_ne d s k ((getKey_eq_none_iff s k).mp h)

/-- Merging a source object with unique keys that carries the key: the
result at that key is the source value merged over the destination
value. -/
theorem getKey_mergeInto_of_some (d s : List (String × OptVal)) (k : String) (sv : OptVal)
    (hnd : (s.map Prod.fst).Nodup) (h : getKey s k = some sv) :
    getKey (mergeInto d s) k = some (mergeAssign (getKey d k) sv) := by
  induction s generalizing d with
  | nil => simp [getKey_nil] at h
  | cons hd tl ih =>
    obtain ⟨k0, v0⟩ := hd
    rw [getKey_cons] at h
    rw [List.map_cons, List.nodup_cons] at hnd
    simp only [mergeInto]
    by_cases h0 : k0 = k
    · subst h0
      rw [if_pos rfl] at h
      obtain rfl := Option.some.inj h
      have htl : ∀ kv ∈ tl, kv.1 ≠ k0 := by
        intro kv hkv hk
        have hmem : kv.1 ∈ List.map Prod.fst tl := List.mem_map_of_mem Prod.fst hkv
        exact hnd.1 (hk ▸ hmem)
      rw [getKey_mergeInto_of_forall_ne _ _ _ htl, getKey_assignKey, if_pos rfl]
    · rw [if_neg h0] at h
      rw [ih _ hnd.2 h, getKey_assignKey, if_neg (Ne.symm h0)]

/-- A source value that is not a plain object replaces the destination
value outright. -/
theorem mergeVal_str_left (m : String) (v : OptVal) : mergeVal (.str m) v = v := by
  cases v <;> simp [mergeVal]

/-- `mergeOptions` with the two merge layers of `defaultOptions` already
folded in: the base configuration carries the method field first, then the
default headers object and the default credentials. -/
theorem mergeOptions_eq (method : String) (options : OptVal) :
    mergeOptions method options =
      mergeVal (.obj [("method", .str method),
                      ("headers", .obj defaultHeaderFields),
                      ("credentials", .str "same-origin")]) options := by
  simp [mergeOptions, defaultOptions, mergeVal, mergeInto, assignKey]

/-- `mergeOptions` on an options object, reduced to one field-list merge
over the base configuration. -/
theorem mergeOptions_obj (method : String) (fields : List (String × OptVal)) :
    mergeOptions method (.obj fields) =
      .obj (mergeInto [("method", .str method),
                       ("headers", .obj defaultHeaderFields),
                       ("credentials", .str "same-origin")] fields) := by
  rw [mergeOptions_eq]
  simp [mergeVal]

/-! ### Lemmas about the response pipeline and the module state -/

/-- On the non-JSON path `handleResponse` resolves or rejects with the raw
response object. -/
theorem handleResponse_not_json (r : Response) (h : isJsonResponse r = false) :
    handleResponse r = if r.ok then Except.ok (.raw r) else Except.error (.raw r) := by
  simp [handleResponse, h]

/-- No call writes to the module state. -/
theorem stepCall_snd (fetch : Transport) (st : ClientState) (c : ApiCall) :
    (stepCall fetch st c).2 = st := by
  cases c <;> rfl

/-- No sequence of calls writes to the module state. -/
theorem runCalls_snd (fetch : Transport) (st : ClientState) (calls : List ApiCall) :
    (runCalls fetch st calls).2 = st := by
  induction calls generalizing st with
  | nil => rfl
  | cons c rest ih =>
    cases hsc : stepCall fetch st c with
    | mk r st' =>
      have hst : st' = st := by rw [← stepCall_snd fetch st c, hsc]
      subst hst
      simp [runCalls, hsc, ih]

/-- The characters of `jsToLower`. -/
theorem toList_jsToLower (s : String) :
    (jsToLower s).toList = s.toList.map Char.toLower := rfl

/-- The characters of `removeAll`. -/
theorem toList_removeAll (c : Char) (s : String) :
    (removeAll c s).toList = s.toList.filter (fun x => x ≠ c) := rfl

/-- The content-type normalization removes only spaces and double quotes:
any other character that lowercasing fixes survives into the normalized
value. -/
theorem char_mem_normalizeContentType (c : Char) (ct : String)
    (hlow : Char.toLower c = c) (hsp : c ≠ ' ') (hq : c ≠ '\"')
    (h : c ∈ ct.toList) :
    c ∈ (normalizeContentType ct).toList := by
  have h1 : c ∈ (jsToLower ct).toList := by
    rw [toList_jsToLower]
    exact List.mem_map.mpr ⟨c, h, hlow⟩
  have h2 : c ∈ (removeAll ' ' (jsToLower ct)).toList := by
    rw [toList_removeAll]
    exact List.mem_filter.mpr ⟨h1, by simp [hsp]⟩
  rw [normalizeContentType, toList_removeAll]
  exact List.mem_filter.mpr ⟨h2, by simp [hq]⟩

/-- Removing a character that does not occur leaves the string unchanged. -/
theorem removeAll_of_not_mem (c : Char) (s : String) (h : c ∉ s.toList) :
    removeAll c s = s := by
  cases s with
  | mk data =>
    apply congrArg String.mk
    apply List.filter_eq_self.mpr
    intro a ha
    simp only [decide_eq_true_eq]
    exact fun hac => h (hac ▸ ha)

/-- A string from which a character was removed no longer contains it. -/
theorem not_mem_removeAll (c : Char) (s : String) : c ∉ (removeAll c s).toList := by
  rw [toList_removeAll]
  intro h
  have := (List.mem_filter.mp h).2
  simp at this

/-- No single-character removal turns one accepted JSON content type into
the other. -/
theorem removeAll_accepted_ne :
    (∀ c : Char, removeAll c "application/json;charset=utf-8" ≠ "application/json") ∧
    (∀ c : Char, removeAll c "application/json" ≠ "application/json;charset=utf-8") := by
  constructor <;> intro c
  · by_cases hc : c ∈ ("application/json;charset=utf-8").toList
    · exact (by decide :
        ∀ c ∈ ("application/json;charset=utf-8").toList,
          removeAll c "application/json;charset=utf-8" ≠ "application/json") c hc
    · rw [removeAll_of_not_mem c _ hc]
      decide
  · by_cases hc : c ∈ ("application/json").toList
    · exact (by decide :
        ∀ c ∈ ("application/json").toList,
          removeAll c "application/json" ≠ "application/json;charset=utf-8") c hc
    · rw [removeAll_of_not_mem c _ hc]
      decide

/-- A normalized content-type value that still contains the extra
character, and that yields one accepted JSON content type once that
character is also removed, matches neither accepted JSON content type. -/
theorem normalize_ne_of_extra_char (c : Char) (ct : String)
    (hmem : c ∈ (normalizeContentType ct).toList)
    (hupto : removeAll c (normalizeContentType ct) = "application/json" ∨
             removeAll c (normalizeContentType ct) = "application/json;charset=utf-8") :
    normalizeContentType ct ≠ "application/json" ∧
      normalizeContentType ct ≠ "application/json;charset=utf-8" := by
  constructor <;> intro he
  · rcases hupto with h | h
    · rw [he] at hmem h
      rw [← h] at hmem
      exact not_mem_removeAll c _ hmem
    · rw [he] at h
      exact removeAll_accepted_ne.2 c h
  · rcases hupto with h | h
    · rw [he] at h
      exact removeAll_accepted_ne.1 c h
    · rw [he] at hmem h
      rw [← h] at hmem
      exact not_mem_removeAll c _ hmem

/-- A configuration whose headers key holds an object delegates
`headerValue` to lookup in that object. -/
theorem headerValue_eq (cfg : OptVal) (name : String) (H : List (String × OptVal))
    (h : configKey cfg "headers" = some (.obj H)) :
    headerValue cfg name = getKey H name := by
  simp [headerValue, h]

/-- The merged configuration for the Accept-override example, computed
once: the caller Accept wins inside the headers mapping, the other two
default headers and the credentials stay. -/
theorem mergeOptions_acceptOverride :
    mergeOptions "GET" (.obj acceptOverrideFields) =
      .obj [("method", .str "GET"),
            ("headers", .obj [("Accept", .str "text/plain"),
                              ("Content-Type", .str "application/json"),
                              ("X-Requested-With", .str "XMLHttpRequest")]),
            ("credentials", .str "same-origin")] := by
  rw [mergeOptions_obj]
  simp [acceptOverrideFields, defaultHeaderFields, mergeInto, assignKey, mergeVal]

/-! ### The claims -/

/-- C1: for every transport response recognized as JSON, `handleResponse`
decodes the body and resolves with the decoded JSON value on a 2xx status
and rejects with the decoded JSON value otherwise; in particular, for the
non-2xx JSON response carrying the DS16 error body, `get(url)` rejects
with exactly that object. -/
theorem claim_C1 :
    (∀ (r : Response) (j : JValue), isJsonResponse r = true → r.jsonBody = .ok j →
      handleResponse r =
        if r.ok then Except.ok (Payload.json j) else Except.error (Payload.json j)) ∧
    get (fun _ _ => errorResponseDS16) "url" (.obj []) = Except.error (.json errorBodyDS16) := by
  constructor
  · intro r j hjson hbody
    simp [handleResponse, hjson, hbody]
  · rfl

/-- Witness for C1: the DS16 response satisfies the hypotheses and the
rejection carries the decoded error object. -/
theorem claim_C1_witness :
    isJsonResponse errorResponseDS16 = true ∧
    errorResponseDS16.jsonBody = Except.ok errorBodyDS16 ∧
    handleResponse errorResponseDS16 = Except.error (.json errorBodyDS16) :=
  ⟨rfl, rfl, (claim_C1.1 errorResponseDS16 errorBodyDS16 rfl rfl).trans rfl⟩

/-- C5: `postFile(url, file)` dispatches a configuration whose body is a
multipart form with exactly the one field `file` bound to the given file,
method POST, credentials same-origin and no headers key at all, and pipes
the transport response through `handleResponse`. -/
theorem claim_C5 :
    ∀ (fetch : Transport) (url file : String),
      postFile fetch url file = handleResponse (fetch url (postFileConfig file)) ∧
      configKey (postFileConfig file) "body" = some (.form [("file", file)]) ∧
      configKey (postFileConfig file) "method" = some (.str "POST") ∧
      configKey (postFileConfig file) "credentials" = some (.str "same-origin") ∧
      configKey (postFileConfig file) "headers" = none :=
  fun _ _ _ => ⟨rfl, rfl, rfl, rfl, rfl⟩

/-- C6: for every transport response not recognized as JSON,
`handleResponse` resolves with the raw response object on a 2xx status and
rejects with the raw response object otherwise, with no JSON decoding
attempted. -/
theorem claim_C6 :
    ∀ r : Response, isJsonResponse r = false →
      handleResponse r = if r.ok then Except.ok (.raw r) else Except.error (.raw r) :=
  fun r h => handleResponse_not_json r h

/-- Witness for C6: a 500 `text/html` response whose body would not even
decode as JSON is rejected as the raw response object. -/
theorem claim_C6_witness :
    isJsonResponse htmlResponse500 = false ∧
    handleResponse htmlResponse500 = Except.error (.raw htmlResponse500) :=
  ⟨rfl, (claim_C6 htmlResponse500 rfl).trans rfl⟩

/-- C7: `get`, `post`, `put` and `delete_` all equal the one common
request function at their respective method constants. -/
theorem claim_C7 :
    ∀ (fetch : Transport) (url : String) (options_ : OptVal),
      get fetch url options_ = requestWithMethod fetch "GET" url options_ ∧
      post fetch url options_ = requestWithMethod fetch "POST" url options_ ∧
      put fetch url options_ = requestWithMethod fetch "PUT" url options_ ∧
      delete_ fetch url options_ = requestWithMethod fetch "DELETE" url options_ :=
  fun _ _ _ => ⟨rfl, rfl, rfl, rfl⟩

/-- C8: the `defaultOptions` constant is never mutated: no call and no
sequence of calls changes the module state, and replaying `mergeOptions`
against the pristine state returns the pure merged configuration with the
state untouched; each operation replayed at the pristine state agrees with
its pure definition. -/
theorem claim_C8 :
    (∀ (fetch : Transport) (st : ClientState) (c : ApiCall), (stepCall fetch st c).2 = st) ∧
    (∀ (fetch : Transport) (st : ClientState) (calls : List ApiCall),
      (runCalls fetch st calls).2 = st) ∧
    (∀ (method : String) (options : OptVal),
      mergeOptionsIn ⟨defaultOptions⟩ method options =
        (mergeOptions method options, ⟨defaultOptions⟩)) ∧
    (∀ (fetch : Transport) (url : String) (o : OptVal),
      stepCall fetch ⟨defaultOptions⟩ (.get url o) = (get fetch url o, ⟨defaultOptions⟩) ∧
      stepCall fetch ⟨defaultOptions⟩ (.post url o) = (post fetch url o, ⟨defaultOptions⟩) ∧
      stepCall fetch ⟨defaultOptions⟩ (.put url o) = (put fetch url o, ⟨defaultOptions⟩) ∧
      stepCall fetch ⟨defaultOptions⟩ (.delete_ url o) = (delete_ fetch url o, ⟨defaultOptions⟩)) ∧
    (∀ (fetch : Transport) (url file : String),
      stepCall fetch ⟨defaultOptions⟩ (.postFile url file) =
        (postFile fetch url file, ⟨defaultOptions⟩)) :=
  ⟨stepCall_snd, runCalls_snd, fun _ _ => rfl,
   fun _ _ _ => ⟨rfl, rfl, rfl, rfl⟩, fun _ _ _ => rfl⟩

/-- C3: `isJsonResponse` is false when the content-type header is absent,
and otherwise true exactly when the header value, lowercased and with all
spaces and double quotes removed, equals `application/json` or
`application/json;charset=utf-8`; mixed case with spaces and quoted
charset is accepted and `text/html` is not. -/
theorem claim_C3 :
    (∀ r : Response, r.getHeader "content-type" = none → isJsonResponse r = false) ∧
    (∀ (r : Response) (ct : String), r.getHeader "content-type" = some ct →
      (isJsonResponse r = true ↔
        (normalizeContentType ct = "application/json" ∨
         normalizeContentType ct = "application/json;charset=utf-8"))) ∧
    isJsonResponse jsonUtf8Response = true ∧
    isJsonResponse htmlResponse500 = false ∧
    isJsonResponse noContentTypeResponse = false := by
  refine ⟨?_, ?_, rfl, rfl, rfl⟩
  · intro r h
    simp [isJsonResponse, h]
  · intro r ct h
    simp [isJsonResponse, h]

/-- Witness for C3: the two universally quantified parts applied to the
concrete fixtures. -/
theorem claim_C3_witness :
    noContentTypeResponse.getHeader "content-type" = none ∧
    isJsonResponse noContentTypeResponse = false ∧
    jsonUtf8Response.getHeader "content-type" = some "Application/json; charset=\"UTF-8\"" ∧
    (isJsonResponse jsonUtf8Response = true ↔
      (normalizeContentType "Application/json; charset=\"UTF-8\"" = "application/json" ∨
       normalizeContentType "Application/json; charset=\"UTF-8\"" =
         "application/json;charset=utf-8")) :=
  ⟨rfl, claim_C3.1 noContentTypeResponse rfl, rfl, claim_C3.2.1 jsonUtf8Response _ rfl⟩

/-- C10: the normalization removes only the space character U+0020 (and
double quotes), not other whitespace: a content-type value that would
equal an accepted JSON content type once one further character is also
removed, but that does contain that character, is not recognized as JSON
and the response is handled on the raw path.  Stated for every character
that lowercasing fixes other than space and double quote — which covers
every non-space whitespace character (tab, newline, carriage return,
vertical tab, form feed, non-breaking space, ...) — and again explicitly
for every non-space whitespace character of `Char.isWhitespace`. -/
theorem claim_C10 :
    (∀ (c : Char) (r : Response) (ct : String),
      Char.toLower c = c → c ≠ ' ' → c ≠ '\"' →
      r.getHeader "content-type" = some ct →
      c ∈ ct.toList →
      (removeAll c (normalizeContentType ct) = "application/json" ∨
       removeAll c (normalizeContentType ct) = "application/json;charset=utf-8") →
      isJsonResponse r = false ∧
      handleResponse r = if r.ok then Except.ok (.raw r) else Except.error (.raw r)) ∧
    (∀ (c : Char) (r : Response) (ct : String),
      c.isWhitespace = true → c ≠ ' ' →
      r.getHeader "content-type" = some ct →
      c ∈ ct.toList →
      (removeAll c (normalizeContentType ct) = "application/json" ∨
       removeAll c (normalizeContentType ct) = "application/json;charset=utf-8") →
      isJsonResponse r = false ∧
      handleResponse r = if r.ok then Except.ok (.raw r) else Except.error (.raw r)) := by
  have main : ∀ (c : Char) (r : Response) (ct : String),
      Char.toLower c = c → c ≠ ' ' → c ≠ '\"' →
      r.getHeader "content-type" = some ct →
      c ∈ ct.toList →
      (removeAll c (normalizeContentType ct) = "application/json" ∨
       removeAll c (normalizeContentType ct) = "application/json;charset=utf-8") →
      isJsonResponse r = false ∧
      handleResponse r = if r.ok then Except.ok (.raw r) else Except.error (.raw r) := by
    intro c r ct hlow hsp hq hct hmem hupto
    have hsurv := char_mem_normalizeContentType c ct hlow hsp hq hmem
    have hne := normalize_ne_of_extra_char c ct hsurv hupto
    have hjson : isJsonResponse r = false := by
      simp [isJsonResponse, hct, hne.1, hne.2]
    exact ⟨hjson, handleResponse_not_json r hjson⟩
  refine ⟨main, ?_⟩
  intro c r ct hws hsp hct hmem hupto
  have h4 : c = ' ' ∨ c = '\t' ∨ c = '\r' ∨ c = '\n' := by
    have h := hws
    simp [Char.isWhitespace] at h
    tauto
  rcases h4 with h | h | h | h
  · exact absurd h hsp
  · subst h
    exact main _ r ct (by decide) hsp (by decide) hct hmem hupto
  · subst h
    exact main _ r ct (by decide) hsp (by decide) hct hmem hupto
  · subst h
    exact main _ r ct (by decide) hsp (by decide) hct hmem hupto

/-- Witness for C10: a content-type equal to the accepted charset form
except for one extra tab is treated as non-JSON (through the whitespace
part), and likewise with one extra vertical tab (through the general
part); both 200 responses resolve as the raw response object. -/
theorem claim_C10_witness :
    (Char.isWhitespace '\t' = true ∧ '\t' ≠ ' ' ∧
     tabResponse.getHeader "content-type" = some "application/json;\tcharset=utf-8" ∧
     '\t' ∈ ("application/json;\tcharset=utf-8").toList ∧
     removeAll '\t' (normalizeContentType "application/json;\tcharset=utf-8") =
       "application/json;charset=utf-8" ∧
     isJsonResponse tabResponse = false ∧
     handleResponse tabResponse = Except.ok (.raw tabResponse)) ∧
    (Char.toLower '\x0B' = '\x0B' ∧ ('\x0B' : Char) ≠ ' ' ∧ ('\x0B' : Char) ≠ '\"' ∧
     vtabResponse.getHeader "content-type" = some "application/json;\x0Bcharset=utf-8" ∧
     '\x0B' ∈ ("application/json;\x0Bcharset=utf-8").toList ∧
     removeAll '\x0B' (normalizeContentType "application/json;\x0Bcharset=utf-8") =
       "application/json;charset=utf-8" ∧
     isJsonResponse vtabResponse = false ∧
     handleResponse vtabResponse = Except.ok (.raw vtabResponse)) := by
  constructor
  · refine ⟨by decide, by decide, rfl, by decide, rfl, ?_, ?_⟩
    · exact (claim_C10.2 '\t' tabResponse _ (by decide) (by decide) rfl
        (by decide) (Or.inr rfl)).1
    · exact (claim_C10.2 '\t' tabResponse _ (by decide) (by decide) rfl
        (by decide) (Or.inr rfl)).2.trans rfl
  · refine ⟨by decide, by decide, by decide, rfl, by decide, rfl, ?_, ?_⟩
    · exact (claim_C10.1 '\x0B' vtabResponse _ (by decide) (by decide) (by decide) rfl
        (by decide) (Or.inr rfl)).1
    · exact (claim_C10.1 '\x0B' vtabResponse _ (by decide) (by decide) (by decide) rfl
        (by decide) (Or.inr rfl)).2.trans rfl

/-- C4: caller headers merge key-by-key with the default headers instead
of replacing the mapping wholesale: in general the merged configuration
carries the field-wise merge of the default headers with the caller
headers, and supplying only an Accept override leaves Content-Type and
X-Requested-With at their defaults while Accept becomes text/plain. -/
theorem claim_C4 :
    (∀ (method : String) (hs : List (String × OptVal)),
      configKey (mergeOptions method (.obj [("headers", .obj hs)])) "headers" =
        some (.obj (mergeInto defaultHeaderFields hs))) ∧
    headerValue (mergeOptions "GET" (.obj acceptOverrideFields)) "Content-Type" =
      some (.str "application/json") ∧
    headerValue (mergeOptions "GET" (.obj acceptOverrideFields)) "X-Requested-With" =
      some (.str "XMLHttpRequest") ∧
    headerValue (mergeOptions "GET" (.obj acceptOverrideFields)) "Accept" =
      some (.str "text/plain") := by
  refine ⟨?_, ?_, ?_, ?_⟩
  · intro method hs
    rw [mergeOptions_obj]
    simp [configKey, mergeInto, assignKey, mergeVal, getKey_cons]
  · rw [mergeOptions_acceptOverride]; rfl
  · rw [mergeOptions_acceptOverride]; rfl
  · rw [mergeOptions_acceptOverride]; rfl

/-- C9: a caller-supplied method key overrides the method constant: for
a well-formed options mapping carrying a method field, the merged
configuration of every one of the four operations carries the caller
value at the method key, and each operation dispatches its merged
configuration. -/
theorem claim_C9 :
    ∀ (fetch : Transport) (url : String) (fields : List (String × OptVal)) (v : OptVal),
      (fields.map Prod.fst).Nodup →
      getKey fields "method" = some v →
      (∀ method : String,
        configKey (mergeOptions method (.obj fields)) "method" = some v) ∧
      get fetch url (.obj fields) =
        handleResponse (fetch url (mergeOptions "GET" (.obj fields))) ∧
      post fetch url (.obj fields) =
        handleResponse (fetch url (mergeOptions "POST" (.obj fields))) ∧
      put fetch url (.obj fields) =
        handleResponse (fetch url (mergeOptions "PUT" (.obj fields))) ∧
      delete_ fetch url (.obj fields) =
        handleResponse (fetch url (mergeOptions "DELETE" (.obj fields))) := by
  intro fetch url fields v hnd hv
  refine ⟨?_, rfl, rfl, rfl, rfl⟩
  intro method
  rw [mergeOptions_obj]
  simp only [configKey]
  rw [getKey_mergeInto_of_some _ _ _ _ hnd hv]
  simp [mergeAssign, mergeVal_str_left, getKey_cons]

/-- Witness for C9: caller options carrying method PATCH make the merged
configuration of `get` carry method PATCH. -/
theorem claim_C9_witness :
    (([("method", OptVal.str "PATCH")].map Prod.fst).Nodup) ∧
    getKey [("method", OptVal.str "PATCH")] "method" = some (.str "PATCH") ∧
    configKey (mergeOptions "GET" (.obj [("method", .str "PATCH")])) "method" =
      some (OptVal.str "PATCH") := by
  refine ⟨by simp, rfl, ?_⟩
  exact (claim_C9 (fun _ _ => noContentTypeResponse) "url" [("method", .str "PATCH")]
    (.str "PATCH") (by simp) rfl).1 "GET"

/-- Counterexample to C2 as stated: the options object overriding only the
Accept header contains no method key and no headers Content-Type key, yet
the dispatched configuration carries Accept text/plain, not the default
Accept application/json the claim asserts. -/
theorem claim_C2_counterexample :
    getKey acceptOverrideFields "method" = none ∧
    getKey acceptOverrideFields "headers" = some (.obj [("Accept", OptVal.str "text/plain")]) ∧
    getKey [("Accept", OptVal.str "text/plain")] "Content-Type" = none ∧
    headerValue (mergeOptions "GET" (.obj acceptOverrideFields)) "Accept" =
      some (OptVal.str "text/plain") ∧
    some (OptVal.str "text/plain") ≠ some (OptVal.str "application/json") := by
  refine ⟨rfl, rfl, rfl, ?_, ?_⟩
  · rw [mergeOptions_acceptOverride]; rfl
  · simp

/-- C2 (amended): for every options mapping that overrides none of the
defaulted keys — no method or credentials key, and headers absent or a
mapping without Accept, Content-Type or X-Requested-With keys —
`get(url, options)` dispatches a configuration with method GET, the three
default headers, and credentials same-origin. -/
theorem claim_C2 :
    ∀ (fetch : Transport) (url : String) (fields : List (String × OptVal)),
      (fields.map Prod.fst).Nodup →
      getKey fields "method" = none →
      getKey fields "credentials" = none →
      (getKey fields "headers" = none ∨
        ∃ hs, getKey fields "headers" = some (.obj hs) ∧
          getKey hs "Accept" = none ∧
          getKey hs "Content-Type" = none ∧
          getKey hs "X-Requested-With" = none) →
      configKey (mergeOptions "GET" (.obj fields)) "method" = some (.str "GET") ∧
      headerValue (mergeOptions "GET" (.obj fields)) "Accept" =
        some (.str "application/json") ∧
      headerValue (mergeOptions "GET" (.obj fields)) "Content-Type" =
        some (.str "application/json") ∧
      headerValue (mergeOptions "GET" (.obj fields)) "X-Requested-With" =
        some (.str "XMLHttpRequest") ∧
      configKey (mergeOptions "GET" (.obj fields)) "credentials" =
        some (.str "same-origin") ∧
      get fetch url (.obj fields) =
        handleResponse (fetch url (mergeOptions "GET" (.obj fields))) := by
  intro fetch url fields hnd hm hc hh
  have hhdrs : ∃ H, configKey (mergeOptions "GET" (.obj fields)) "headers" = some (.obj H) ∧
      getKey H "Accept" = some (.str "application/json") ∧
      getKey H "Content-Type" = some (.str "application/json") ∧
      getKey H "X-Requested-With" = some (.str "XMLHttpRequest") := by
    rw [mergeOptions_obj]
    simp only [configKey]
    rcases hh with h | ⟨hs, hhs, ha, hct, hx⟩
    · rw [getKey_mergeInto_of_none _ _ _ h]
      exact ⟨defaultHeaderFields, rfl, rfl, rfl, rfl⟩
    · rw [getKey_mergeInto_of_some _ _ _ _ hnd hhs]
      refine ⟨mergeInto defaultHeaderFields hs, ?_, ?_, ?_, ?_⟩
      · simp [mergeAssign, mergeVal, getKey_cons]
      · rw [getKey_mergeInto_of_none _ _ _ ha]; rfl
      · rw [getKey_mergeInto_of_none _ _ _ hct]; rfl
      · rw [getKey_mergeInto_of_none _ _ _ hx]; rfl
  obtain ⟨H, hH, hA, hCT, hX⟩ := hhdrs
  refine ⟨?_, ?_, ?_, ?_, ?_, rfl⟩
  · rw [mergeOptions_obj]
    simp only [configKey]
    rw [getKey_mergeInto_of_none _ _ _ hm]
    rfl
  · rw [headerValue_eq _ _ _ hH]; exact hA
  · rw [headerValue_eq _ _ _ hH]; exact hCT
  · rw [headerValue_eq _ _ _ hH]; exact hX
  · rw [mergeOptions_obj]
    simp only [configKey]
    rw [getKey_mergeInto_of_none _ _ _ hc]
    rfl

/-- Witness for C2 (amended): the empty options mapping overrides nothing,
and the dispatched configuration carries all five default values. -/
theorem claim_C2_witness :
    (([] : List (String × OptVal)).map Prod.fst).Nodup ∧
    getKey [] "method" = none ∧
    getKey [] "credentials" = none ∧
    getKey [] "headers" = none ∧
    configKey (mergeOptions "GET" (.obj [])) "method" = some (.str "GET") ∧
    headerValue (mergeOptions "GET" (.obj [])) "Accept" = some (.str "application/json") ∧
    headerValue (mergeOptions "GET" (.obj [])) "Content-Type" =
      some (.str "application/json") ∧
    headerValue (mergeOptions "GET" (.obj [])) "X-Requested-With" =
      some (.str "XMLHttpRequest") ∧
    configKey (mergeOptions "GET" (.obj [])) "credentials" = some (.str "same-origin") := by
  have h := claim_C2 (fun _ _ => noContentTypeResponse) "url" [] (by simp) rfl rfl (Or.inl rfl)
  exact ⟨by simp, rfl, rfl, rfl, h.1, h.2.1, h.2.2.1, h.2.2.2.1, h.2.2.2.2.1⟩

end MolgenisClient
